import Mathlib

/-!
Shallow embedding of the Telegram YouTube download bot (`bot.py`) and proofs
of the specification claims about it.

The source is a single Python module.  External effects (the Telegram client,
the `yt_dlp` extraction engine, the filesystem, the network) are modelled as
explicit oracle parameters; each handler is embedded as a pure function from
the inbound event plus those oracles to the list of outbound actions it
performs, in order.
-/

/-- An inline keyboard button: visible label and opaque callback payload,
mirroring `types.InlineKeyboardButton(text=..., callback_data=...)`. -/
structure Button where
  text : String
  callback_data : String
  deriving DecidableEq

/-- One outbound action performed by a handler, in the order the Python code
performs them.  `downloadCall` records an invocation of the extraction
engine's download operation (`download_youtube_video`). -/
inductive BotAction where
  | reply (text : String)
  | answerCallback (text : String)
  | sendMessage (text : String)
  | sendKeyboard (text : String) (buttons : List Button)
  | downloadCall (url format_id : String)
  | sendVideo (path : String)
  deriving DecidableEq

/-- One format dictionary as reported by the extraction engine.  Fields the
code reads with `dict.get` are `Option`s (`none` = key absent); `format_id`
is accessed with `fmt['format_id']` and is always present. -/
structure MediaFormat where
  format_id : String
  vcodec : Option String
  acodec : Option String
  height : Option Nat
  ext : Option String
  deriving DecidableEq

/-- The metadata record returned by `ydl.extract_info(url, download=False)`:
the raw format list (`info.get('formats', [])`) and the optional title. -/
structure VideoInfo where
  formats : List MediaFormat
  title : Option String
  deriving DecidableEq

/-- Filter predicate `f.get('vcodec') != 'none' and f.get('acodec') != 'none'` (bot.py line 77).
Note an absent key yields Python `None`, and `None != 'none'` is `True`. -/
def valid_format (f : MediaFormat) : Bool :=
  decide (f.vcodec ≠ some "none") && decide (f.acodec ≠ some "none")

/-- Function `extract_formats` (bot.py lines 62-81).  The engine call either returns a
`VideoInfo` or raises (`Except.error`); on a raise the Python function
returns `(None, None)`, modelled as `none`. -/
def extract_formats (engine : Except String VideoInfo) :
    Option (List MediaFormat × String) :=
  match engine with
  | .error _ => none
  | .ok info => some (info.formats.filter valid_format, info.title.getD "video")

/-- Function `download_youtube_video` (bot.py lines 86-100): the engine download either
resolves to a file path or raises, in which case the function catches the
exception and returns `None`. -/
def download_youtube_video (engineResult : Except String String) : Option String :=
  match engineResult with
  | .ok path => some path
  | .error _ => none

/-- The token attached to each inline button:
`f"{fmt['format_id']}|{url}"` (bot.py line 124). -/
def build_token (format_id url : String) : String :=
  format_id ++ "|" ++ url

/-- Python `str.split(sep)` for a single-character separator: splits on every
occurrence, keeping empty fields, and returns `[s]` when `sep` is absent. -/
def splitOnChar (sep : Char) : List Char → List (List Char)
  | [] => [[]]
  | c :: rest =>
    if c = sep then [] :: splitOnChar sep rest
    else
      match splitOnChar sep rest with
      | [] => [[c]]
      | p :: ps => (c :: p) :: ps

/-- Parse step `call.data.split('|')` followed by the `len(data) != 2` check
(bot.py lines 135-140): `some (format_id, url)` exactly when the payload
splits into two fields. -/
def parse_token (payload : String) : Option (String × String) :=
  match splitOnChar '|' payload.data with
  | [a, b] => some (String.mk a, String.mk b)
  | _ => none

/-- Value `quality = fmt.get('height', 'NA')` rendered into the f-string
(bot.py lines 121-123). -/
def resolution_text : Option Nat → String
  | some h => toString h
  | none => "NA"

/-- The button label `f"{quality}p ({ext})"` (bot.py line 123). -/
def button_label (f : MediaFormat) : String :=
  resolution_text f.height ++ "p (" ++ f.ext.getD "" ++ ")"

/-- One inline keyboard button for a format (bot.py lines 119-125). -/
def make_button (url : String) (f : MediaFormat) : Button :=
  { text := button_label f, callback_data := build_token f.format_id url }

/-- Constant `max_num_formats = 5` (bot.py line 118). -/
def max_num_formats : Nat := 5

/-- The keyboard built by the loop `for fmt in formats[:max_num_formats]`
(bot.py lines 117-125). -/
def build_keyboard (url : String) (formats : List MediaFormat) : List Button :=
  (formats.take max_num_formats).map (make_button url)

/-- Prompt `f"Select quality for '{title}':"` (bot.py line 127). -/
def prompt_text (title : String) : String :=
  "Select quality for \x27" ++ title ++ "\x27:"

/-- The `receive_video_link` handler (bot.py lines 105-127) as a trace of
outbound actions.  `if not formats:` is true both when `extract_formats`
returned `(None, None)` and when the filtered list is empty. -/
def receive_video_link (engine : Except String VideoInfo) (url : String) :
    List BotAction :=
  .reply "Processing your YouTube link, please wait..." ::
  match extract_formats engine with
  | none => [.reply "❌ Failed to extract video formats. Please try again."]
  | some (formats, title) =>
    if formats.isEmpty then
      [.reply "❌ Failed to extract video formats. Please try again."]
    else
      [.sendKeyboard (prompt_text title) (build_keyboard url formats)]

/-- The `callback_query` handler (bot.py lines 132-155) as a trace of outbound
actions.  `engine url format_id` is the download attempt of
`download_youtube_video`; `onDisk` is `os.path.exists`; `sendOk` tells
whether opening/sending the file raises, with `sendErr` the exception text.
`if video_path and os.path.exists(video_path)` needs a non-empty (truthy)
path that exists on disk. -/
def callback_query (engine : String → String → Except String String)
    (onDisk : String → Bool) (sendOk : Bool) (sendErr : String)
    (payload : String) : List BotAction :=
  match parse_token payload with
  | none => [.answerCallback "Invalid selection."]
  | some (format_id, url) =>
    .answerCallback "Downloading video..." ::
    .sendMessage "📥 Downloading video, please wait..." ::
    .downloadCall url format_id ::
    match download_youtube_video (engine url format_id) with
    | some video_path =>
      if !video_path.isEmpty && onDisk video_path then
        if sendOk then [.sendVideo video_path]
        else [.sendMessage ("❌ Failed to send video: " ++ sendErr)]
      else [.sendMessage "❌ Failed to download the video."]
    | none => [.sendMessage "❌ Failed to download the video."]

/-- Abstract syntax of the regular expressions needed for the pattern on
bot.py line 56, `(https?://)?(www\.)?(youtube\.com|youtu\.?be)/.+`.
`cls p` is a single-character class (used for literal characters and for
`.`, which in Python matches any character except a newline). -/
inductive RE where
  | emp
  | eps
  | cls (p : Char → Bool)
  | alt (r₁ r₂ : RE)
  | cat (r₁ r₂ : RE)
  | star (r : RE)

/-- Whether a regex accepts the empty string. -/
def nullable : RE → Bool
  | .emp => false
  | .eps => true
  | .cls _ => false
  | .alt r₁ r₂ => nullable r₁ || nullable r₂
  | .cat r₁ r₂ => nullable r₁ && nullable r₂
  | .star _ => true

/-- Brzozowski derivative of a regex with respect to one character. -/
def derivRE : RE → Char → RE
  | .emp, _ => .emp
  | .eps, _ => .emp
  | .cls p, c => if p c then .eps else .emp
  | .alt r₁ r₂, c => .alt (derivRE r₁ c) (derivRE r₂ c)
  | .cat r₁ r₂, c =>
    if nullable r₁ then .alt (.cat (derivRE r₁ c) r₂) (derivRE r₂ c)
    else .cat (derivRE r₁ c) r₂
  | .star r, c => .cat (derivRE r c) (.star r)

/-- Declarative acceptance relation.  The `star` chunks are required to be
non-empty, which does not change the accepted language and simplifies
inversion. -/
inductive Accepts : RE → List Char → Prop where
  | eps : Accepts .eps []
  | cls {p : Char → Bool} {c : Char} : p c = true → Accepts (.cls p) [c]
  | altL {r₁ r₂ : RE} {s : List Char} : Accepts r₁ s → Accepts (.alt r₁ r₂) s
  | altR {r₁ r₂ : RE} {s : List Char} : Accepts r₂ s → Accepts (.alt r₁ r₂) s
  | cat {r₁ r₂ : RE} {s₁ s₂ : List Char} :
      Accepts r₁ s₁ → Accepts r₂ s₂ → Accepts (.cat r₁ r₂) (s₁ ++ s₂)
  | starNil {r : RE} : Accepts (.star r) []
  | starCons {r : RE} {c : Char} {s₁ s₂ : List Char} :
      Accepts r (c :: s₁) → Accepts (.star r) s₂ →
      Accepts (.star r) (c :: (s₁ ++ s₂))

/-- Decides whether the regex matches SOME prefix of the input, which is the
truth value of Python's `re.match` (anchored at the start, not at the end). -/
def matchStart (r : RE) : List Char → Bool
  | [] => nullable r
  | c :: s => nullable r || matchStart (derivRE r c) s

/-- A single literal character. -/
def chrRE (c : Char) : RE := .cls (fun x => x == c)

/-- Python's `.`: any character other than a newline. -/
def dotRE : RE := .cls (fun x => !(x == '\n'))

/-- Optional: `r?`. -/
def optRE (r : RE) : RE := .alt .eps r

/-- Repetition: `r+`. -/
def plusRE (r : RE) : RE := .cat r (.star r)

/-- The regex matching exactly one given character sequence. -/
def strREl : List Char → RE
  | [] => .eps
  | c :: cs => .cat (chrRE c) (strREl cs)

/-- The regex matching exactly one given literal string. -/
def strRE (s : String) : RE := strREl s.data

/-- Scheme part `(https?://)?` of the pattern. -/
def schemeRE : RE :=
  optRE (.cat (strRE "http") (.cat (optRE (chrRE 's')) (strRE "://")))

/-- Host alternation `(youtube\.com|youtu\.?be)` of the pattern. -/
def hostRE : RE :=
  .alt (strRE "youtube.com")
    (.cat (strRE "youtu") (.cat (optRE (chrRE '.')) (strRE "be")))

/-- The full pattern of bot.py line 56:
`(https?://)?(www\.)?(youtube\.com|youtu\.?be)/.+`. -/
def youtube_regex : RE :=
  .cat schemeRE
    (.cat (optRE (strRE "www."))
      (.cat hostRE (.cat (chrRE '/') (plusRE dotRE))))

/-- Function `is_youtube_link` (bot.py lines 55-57): truthiness of
`re.match(youtube_regex, text)`. -/
def is_youtube_link (text : String) : Bool :=
  matchStart youtube_regex text.data

/-- The strings the optional-scheme part of the pattern can consume. -/
def schemeStrs : List (List Char) := [[], "http://".data, "https://".data]

/-- The strings the optional `www.` part of the pattern can consume. -/
def wwwStrs : List (List Char) := [[], "www.".data]

/-- The strings the host alternation of the pattern can consume.  Because the
dot in `youtu\.?be` is optional, the bare host `youtube` is included. -/
def hostStrs : List (List Char) :=
  ["youtube.com".data, "youtu.be".data, "youtube".data]

/-- Test `startsWithList p s`: `p` is an initial segment of `s`. -/
def startsWithList : List Char → List Char → Bool
  | [], _ => true
  | _ :: _, [] => false
  | p :: ps, c :: cs => p == c && startsWithList ps cs

/-- Modelled from the spec and claim wording, for comparison with the code:
a string "starts with a supported video-platform link" when an optional
scheme, an optional `www.`, and one of the two supported hostnames
`youtube.com` / `youtu.be` are followed by `/` and at least one further
character. -/
def spec_supported_link (text : String) : Bool :=
  schemeStrs.any fun a =>
    wwwStrs.any fun b =>
      ["youtube.com".data, "youtu.be".data].any fun h =>
        startsWithList (a ++ b ++ h ++ ['/']) text.data &&
          decide ((a ++ b ++ h ++ ['/']).length < text.data.length)

/-- Modelled from the claim wording for C3: a descriptor "carries an audio
component" when its audio codec field is present and not the marker
`"none"`. -/
def has_audio_component (f : MediaFormat) : Prop :=
  ∃ c, f.acodec = some c ∧ c ≠ "none"

/-- Modelled from the claim wording for C3: a descriptor "carries a video
component" when its video codec field is present and not the marker
`"none"`. -/
def has_video_component (f : MediaFormat) : Prop :=
  ∃ c, f.vcodec = some c ∧ c ≠ "none"

/-- A format dictionary in which both codec keys are absent. -/
def noCodecFormat : MediaFormat :=
  { format_id := "f1", vcodec := none, acodec := none, height := none,
    ext := none }

/-- The 720p mp4 variant of end-to-end scenario 1. -/
def fmt720 : MediaFormat :=
  { format_id := "22", vcodec := some "avc1", acodec := some "mp4a",
    height := some 720, ext := some "mp4" }

/-- Outcome of `requests.get("https://api.telegram.org", timeout=20)`:
success, a `requests.ConnectionError`, or any other exception. -/
inductive NetOutcome where
  | ok
  | connError
  | unexpected
  deriving DecidableEq

/-- Function `check_internet` (bot.py lines 13-22): returns a Bool, except that an
unexpected error calls `sys.exit(2)` (modelled as `Except.error 2`). -/
def check_internet : NetOutcome → Except Nat Bool
  | .ok => .ok true
  | .connError => .ok false
  | .unexpected => .error 2

/-- Result of the module-level startup sequence: the exit code if the process
halted (`none` = it reached the event loop), plus whether the connectivity
precheck was ever attempted. -/
structure StartupResult where
  exitCode : Option Nat
  networkChecked : Bool
  deriving DecidableEq

/-- The module-level startup sequence (bot.py lines 27-43): read `BOT_TOKEN`
(`none` = unset, and Python's `if not BOT_TOKEN` is also true for the empty
string), exit 1 if falsy, then run `check_internet` and exit 1 when it
returns `False` (exit 2 propagates from inside `check_internet`). -/
def startup (botToken : Option String) (net : NetOutcome) : StartupResult :=
  if botToken = none ∨ botToken = some "" then
    { exitCode := some 1, networkChecked := false }
  else
    match check_internet net with
    | .error c => { exitCode := some c, networkChecked := true }
    | .ok true => { exitCode := none, networkChecked := true }
    | .ok false => { exitCode := some 1, networkChecked := true }

/-! ### Properties of `splitOnChar` -/

theorem splitOnChar_ne_nil (sep : Char) : ∀ cs : List Char, splitOnChar sep cs ≠ [] := by
  intro cs
  cases cs with
  | nil => simp [splitOnChar]
  | cons c cs =>
    by_cases h : c = sep
    · simp [splitOnChar, h]
    · simp only [splitOnChar, if_neg h]
      cases hsp : splitOnChar sep cs <;> simp

theorem splitOnChar_length (sep : Char) :
    ∀ cs : List Char, (splitOnChar sep cs).length = cs.count sep + 1 := by
  intro cs
  induction cs with
  | nil => simp [splitOnChar]
  | cons c cs ih =>
    by_cases h : c = sep
    · simp [splitOnChar, h, List.count_cons, ih]
    · simp only [splitOnChar, if_neg h]
      cases hsp : splitOnChar sep cs with
      | nil => exact absurd hsp (splitOnChar_ne_nil sep cs)
      | cons p ps =>
        rw [hsp] at ih
        simp only [List.length_cons] at ih ⊢
        rw [List.count_cons]
        have hb : (c == sep) = false := by simp [h]
        simp [hb]
        omega

theorem splitOnChar_no_sep (sep : Char) :
    ∀ cs : List Char, sep ∉ cs → splitOnChar sep cs = [cs] := by
  intro cs
  induction cs with
  | nil => intro _; rfl
  | cons c cs ih =>
    intro h
    have hc : c ≠ sep := fun e => h (by rw [← e]; exact List.mem_cons_self c cs)
    have hrest : sep ∉ cs := fun m => h (List.mem_cons_of_mem c m)
    simp only [splitOnChar, if_neg hc, ih hrest]

theorem splitOnChar_append (sep : Char) : ∀ xs ys : List Char, sep ∉ xs →
    splitOnChar sep (xs ++ sep :: ys) = xs :: splitOnChar sep ys := by
  intro xs
  induction xs with
  | nil => intro ys _; simp [splitOnChar]
  | cons x xs ih =>
    intro ys h
    have hx : x ≠ sep := fun e => h (by rw [← e]; exact List.mem_cons_self x xs)
    have hrest : sep ∉ xs := fun m => h (List.mem_cons_of_mem x m)
    simp only [List.cons_append, splitOnChar, if_neg hx]
    rw [show splitOnChar sep (xs.append (sep :: ys)) = xs :: splitOnChar sep ys from
      ih ys hrest]

theorem parse_token_eq_none (payload : String)
    (h : payload.data.count '|' ≠ 1) : parse_token payload = none := by
  unfold parse_token
  have hlen : (splitOnChar '|' payload.data).length ≠ 2 := by
    rw [splitOnChar_length]; omega
  cases hsp : splitOnChar '|' payload.data with
  | nil => rfl
  | cons a l =>
    cases l with
    | nil => rfl
    | cons b l =>
      cases l with
      | nil => rw [hsp] at hlen; exact absurd rfl hlen
      | cons d l => rfl

/-! ### Soundness of the regex matcher:
`matchStart` decides the existence of an accepted prefix. -/

theorem accepts_of_nullable : ∀ r : RE, nullable r = true → Accepts r [] := by
  intro r
  induction r with
  | emp => simp [nullable]
  | eps => intro _; exact .eps
  | cls p => simp [nullable]
  | alt r₁ r₂ ih₁ ih₂ =>
    intro h
    rcases Bool.or_eq_true _ _ |>.mp h with h | h
    · exact .altL (ih₁ h)
    · exact .altR (ih₂ h)
  | cat r₁ r₂ ih₁ ih₂ =>
    intro h
    rcases Bool.and_eq_true _ _ |>.mp h with ⟨h₁, h₂⟩
    exact Accepts.cat (ih₁ h₁) (ih₂ h₂)
  | star r ih => intro _; exact .starNil

theorem nullable_of_accepts : ∀ {r : RE} {s : List Char},
    Accepts r s → s = [] → nullable r = true := by
  intro r s h
  induction h with
  | eps => intro _; rfl
  | cls hp => intro hs; exact absurd hs (by simp)
  | altL h ih => intro hs; simp [nullable, ih hs]
  | altR h ih => intro hs; simp [nullable, ih hs]
  | cat h₁ h₂ ih₁ ih₂ =>
    intro hs
    rcases List.append_eq_nil.mp hs with ⟨e₁, e₂⟩
    simp [nullable, ih₁ e₁, ih₂ e₂]
  | starNil => intro _; rfl
  | starCons h₁ h₂ ih₁ ih₂ => intro hs; exact absurd hs (by simp)

theorem accepts_eps_iff (s : List Char) : Accepts .eps s ↔ s = [] := by
  constructor
  · intro h; cases h; rfl
  · rintro rfl; exact .eps

theorem accepts_alt_iff (r₁ r₂ : RE) (s : List Char) :
    Accepts (.alt r₁ r₂) s ↔ Accepts r₁ s ∨ Accepts r₂ s := by
  constructor
  · intro h
    cases h with
    | altL h => exact Or.inl h
    | altR h => exact Or.inr h
  · rintro (h | h)
    · exact .altL h
    · exact .altR h

theorem accepts_cat_iff (r₁ r₂ : RE) (s : List Char) :
    Accepts (.cat r₁ r₂) s ↔
      ∃ s₁ s₂, s = s₁ ++ s₂ ∧ Accepts r₁ s₁ ∧ Accepts r₂ s₂ := by
  constructor
  · intro h
    cases h with
    | cat h₁ h₂ => exact ⟨_, _, rfl, h₁, h₂⟩
  · rintro ⟨s₁, s₂, rfl, h₁, h₂⟩
    exact .cat h₁ h₂

theorem accepts_derivRE : ∀ (r : RE) (c : Char) (s : List Char),
    Accepts (derivRE r c) s ↔ Accepts r (c :: s) := by
  intro r
  induction r with
  | emp =>
    intro c s
    exact ⟨fun h => (nomatch h), fun h => (nomatch h)⟩
  | eps =>
    intro c s
    exact ⟨fun h => (nomatch h), fun h => (nomatch h)⟩
  | cls p =>
    intro c s
    simp only [derivRE]
    by_cases hp : p c = true
    · rw [if_pos hp]
      constructor
      · intro h; cases h; exact .cls hp
      · intro h; cases h with | cls hq => exact .eps
    · rw [if_neg hp]
      constructor
      · intro h; exact nomatch h
      · intro h; cases h with | cls hq => exact absurd hq hp
  | alt r₁ r₂ ih₁ ih₂ =>
    intro c s
    simp only [derivRE]
    constructor
    · intro h
      cases h with
      | altL h => exact .altL ((ih₁ c s).mp h)
      | altR h => exact .altR ((ih₂ c s).mp h)
    · intro h
      cases h with
      | altL h => exact .altL ((ih₁ c s).mpr h)
      | altR h => exact .altR ((ih₂ c s).mpr h)
  | cat r₁ r₂ ih₁ ih₂ =>
    intro c s
    simp only [derivRE]
    by_cases hn : nullable r₁ = true
    · rw [if_pos hn]
      constructor
      · intro h
        cases h with
        | altL h =>
          rcases (accepts_cat_iff _ _ _).mp h with ⟨s₁, s₂, rfl, h₁, h₂⟩
          exact Accepts.cat ((ih₁ c s₁).mp h₁) h₂
        | altR h =>
          exact Accepts.cat (accepts_of_nullable r₁ hn) ((ih₂ c s).mp h)
      · intro h
        rcases (accepts_cat_iff _ _ _).mp h with ⟨s₁, s₂, heq, h₁, h₂⟩
        cases s₁ with
        | nil =>
          simp only [List.nil_append] at heq
          exact .altR ((ih₂ c s).mpr (heq ▸ h₂))
        | cons x s₁ =>
          rw [List.cons_append] at heq
          injection heq with hx hs
          subst hx
          subst hs
          exact .altL (Accepts.cat ((ih₁ c s₁).mpr h₁) h₂)
    · rw [if_neg hn]
      constructor
      · intro h
        rcases (accepts_cat_iff _ _ _).mp h with ⟨s₁, s₂, rfl, h₁, h₂⟩
        exact Accepts.cat ((ih₁ c s₁).mp h₁) h₂
      · intro h
        rcases (accepts_cat_iff _ _ _).mp h with ⟨s₁, s₂, heq, h₁, h₂⟩
        cases s₁ with
        | nil => exact absurd (nullable_of_accepts h₁ rfl) hn
        | cons x s₁ =>
          rw [List.cons_append] at heq
          injection heq with hx hs
          subst hx
          subst hs
          exact Accepts.cat ((ih₁ c s₁).mpr h₁) h₂
  | star r ih =>
    intro c s
    simp only [derivRE]
    constructor
    · intro h
      rcases (accepts_cat_iff _ _ _).mp h with ⟨s₁, s₂, rfl, h₁, h₂⟩
      exact Accepts.starCons ((ih c s₁).mp h₁) h₂
    · intro h
      cases h with
      | starCons h₁ h₂ => exact Accepts.cat ((ih c _).mpr h₁) h₂

theorem matchStart_iff : ∀ (s : List Char) (r : RE),
    matchStart r s = true ↔ ∃ p q, s = p ++ q ∧ Accepts r p := by
  intro s
  induction s with
  | nil =>
    intro r
    simp only [matchStart]
    constructor
    · intro h; exact ⟨[], [], rfl, accepts_of_nullable r h⟩
    · rintro ⟨p, q, heq, hp⟩
      rcases List.append_eq_nil.mp heq.symm with ⟨rfl, rfl⟩
      exact nullable_of_accepts hp rfl
  | cons c s ih =>
    intro r
    simp only [matchStart, Bool.or_eq_true]
    constructor
    · rintro (h | h)
      · exact ⟨[], c :: s, rfl, accepts_of_nullable r h⟩
      · rcases (ih (derivRE r c)).mp h with ⟨p, q, heq, hp⟩
        exact ⟨c :: p, q, by simp [heq], (accepts_derivRE r c p).mp hp⟩
    · rintro ⟨p, q, heq, hp⟩
      cases p with
      | nil => exact Or.inl (nullable_of_accepts hp rfl)
      | cons x p =>
        rw [List.cons_append] at heq
        injection heq with hx hs
        subst hx
        exact Or.inr ((ih (derivRE r c)).mpr ⟨p, q, hs, (accepts_derivRE r c p).mpr hp⟩)

/-! ### Languages of the pieces of the YouTube pattern -/

theorem accepts_chrRE (c : Char) (s : List Char) : Accepts (chrRE c) s ↔ s = [c] := by
  constructor
  · intro h
    cases h with
    | cls hp =>
      simp only [beq_iff_eq] at hp
      rw [hp]
  · rintro rfl
    exact .cls (by simp)

theorem accepts_dotRE (s : List Char) :
    Accepts dotRE s ↔ ∃ c, s = [c] ∧ c ≠ '\n' := by
  constructor
  · intro h
    cases h with
    | cls hp =>
      simp only [Bool.not_eq_true', beq_eq_false_iff_ne, ne_eq] at hp
      exact ⟨_, rfl, hp⟩
  · rintro ⟨c, rfl, hc⟩
    exact .cls (by simp [hc])

theorem accepts_strREl : ∀ (cs s : List Char), Accepts (strREl cs) s ↔ s = cs := by
  intro cs
  induction cs with
  | nil => intro s; simp only [strREl]; exact accepts_eps_iff s
  | cons c cs ih =>
    intro s
    simp only [strREl]
    rw [accepts_cat_iff]
    constructor
    · rintro ⟨s₁, s₂, rfl, h₁, h₂⟩
      rcases (accepts_chrRE c s₁).mp h₁ with rfl
      rcases (ih s₂).mp h₂ with rfl
      rfl
    · rintro rfl
      exact ⟨[c], cs, rfl, (accepts_chrRE c [c]).mpr rfl, (ih cs).mpr rfl⟩

theorem accepts_strRE (t : String) (s : List Char) :
    Accepts (strRE t) s ↔ s = t.data :=
  accepts_strREl t.data s

theorem accepts_optRE (r : RE) (s : List Char) :
    Accepts (optRE r) s ↔ s = [] ∨ Accepts r s := by
  unfold optRE
  rw [accepts_alt_iff, accepts_eps_iff]

theorem star_dot_sound : ∀ {r : RE} {s : List Char},
    Accepts r s → r = .star dotRE → ∀ c ∈ s, c ≠ '\n' := by
  intro r s h
  induction h with
  | eps => intro hr; exact absurd hr (by intro hr; exact RE.noConfusion hr)
  | cls hp => intro hr; exact absurd hr (by intro hr; exact RE.noConfusion hr)
  | altL h ih => intro hr; exact absurd hr (by intro hr; exact RE.noConfusion hr)
  | altR h ih => intro hr; exact absurd hr (by intro hr; exact RE.noConfusion hr)
  | cat h₁ h₂ ih₁ ih₂ => intro hr; exact absurd hr (by intro hr; exact RE.noConfusion hr)
  | starNil => intro _ c hc; exact absurd hc (List.not_mem_nil c)
  | starCons h₁ h₂ ih₁ ih₂ =>
    intro hr c hc
    injection hr with hr'
    subst hr'
    rcases (accepts_dotRE _).mp h₁ with ⟨d, hd, hdn⟩
    injection hd with hd₁ hd₂
    subst hd₁
    subst hd₂
    simp only [List.nil_append] at hc
    rcases List.mem_cons.mp hc with rfl | hc
    · exact hdn
    · exact ih₂ rfl c hc

theorem star_dot_complete : ∀ s : List Char,
    (∀ c ∈ s, c ≠ '\n') → Accepts (.star dotRE) s := by
  intro s
  induction s with
  | nil => intro _; exact .starNil
  | cons c s ih =>
    intro h
    have hc : c ≠ '\n' := h c (List.mem_cons_self c s)
    have hs := ih fun d hd => h d (List.mem_cons_of_mem c hd)
    exact Accepts.starCons ((accepts_dotRE [c]).mpr ⟨c, rfl, hc⟩) hs

theorem accepts_star_dot (s : List Char) :
    Accepts (.star dotRE) s ↔ ∀ c ∈ s, c ≠ '\n' :=
  ⟨fun h => star_dot_sound h rfl, star_dot_complete s⟩

theorem accepts_plus_dot (s : List Char) :
    Accepts (plusRE dotRE) s ↔
      ∃ c t, s = c :: t ∧ c ≠ '\n' ∧ ∀ d ∈ t, d ≠ '\n' := by
  unfold plusRE
  rw [accepts_cat_iff]
  constructor
  · rintro ⟨s₁, s₂, rfl, h₁, h₂⟩
    rcases (accepts_dotRE s₁).mp h₁ with ⟨c, rfl, hc⟩
    exact ⟨c, s₂, rfl, hc, (accepts_star_dot s₂).mp h₂⟩
  · rintro ⟨c, t, rfl, hc, ht⟩
    exact ⟨[c], t, rfl, (accepts_dotRE [c]).mpr ⟨c, rfl, hc⟩,
      (accepts_star_dot t).mpr ht⟩

theorem accepts_schemeRE (s : List Char) :
    Accepts schemeRE s ↔ s ∈ schemeStrs := by
  unfold schemeRE
  rw [accepts_optRE, accepts_cat_iff]
  constructor
  · rintro (rfl | ⟨s₁, s₂, rfl, h₁, h₂⟩)
    · simp [schemeStrs]
    · rcases (accepts_strRE _ _).mp h₁ with rfl
      rw [accepts_cat_iff] at h₂
      rcases h₂ with ⟨t₁, t₂, rfl, g₁, g₂⟩
      rcases (accepts_strRE _ _).mp g₂ with rfl
      rw [accepts_optRE] at g₁
      rcases g₁ with rfl | g₁
      · decide
      · rcases (accepts_chrRE _ _).mp g₁ with rfl
        decide
  · intro hs
    simp only [schemeStrs, List.mem_cons, List.not_mem_nil, or_false] at hs
    rcases hs with rfl | rfl | rfl
    · exact Or.inl rfl
    · refine Or.inr ⟨"http".data, [] ++ "://".data, by decide,
        (accepts_strRE _ _).mpr rfl, ?_⟩
      rw [accepts_cat_iff]
      exact ⟨[], "://".data, rfl, (accepts_optRE _ _).mpr (Or.inl rfl),
        (accepts_strRE _ _).mpr rfl⟩
    · refine Or.inr ⟨"http".data, ['s'] ++ "://".data, by decide,
        (accepts_strRE _ _).mpr rfl, ?_⟩
      rw [accepts_cat_iff]
      exact ⟨['s'], "://".data, rfl,
        (accepts_optRE _ _).mpr (Or.inr ((accepts_chrRE _ _).mpr rfl)),
        (accepts_strRE _ _).mpr rfl⟩

theorem accepts_wwwRE (s : List Char) :
    Accepts (optRE (strRE "www.")) s ↔ s ∈ wwwStrs := by
  rw [accepts_optRE, accepts_strRE]
  simp [wwwStrs]

theorem accepts_hostRE (s : List Char) :
    Accepts hostRE s ↔ s ∈ hostStrs := by
  unfold hostRE
  rw [accepts_alt_iff]
  constructor
  · rintro (h | h)
    · rcases (accepts_strRE _ _).mp h with rfl
      decide
    · rw [accepts_cat_iff] at h
      rcases h with ⟨s₁, s₂, rfl, h₁, h₂⟩
      rcases (accepts_strRE _ _).mp h₁ with rfl
      rw [accepts_cat_iff] at h₂
      rcases h₂ with ⟨t₁, t₂, rfl, g₁, g₂⟩
      rcases (accepts_strRE _ _).mp g₂ with rfl
      rw [accepts_optRE] at g₁
      rcases g₁ with rfl | g₁
      · decide
      · rcases (accepts_chrRE _ _).mp g₁ with rfl
        decide
  · intro hs
    simp only [hostStrs, List.mem_cons, List.not_mem_nil, or_false] at hs
    rcases hs with rfl | rfl | rfl
    · exact Or.inl ((accepts_strRE _ _).mpr rfl)
    · refine Or.inr ?_
      rw [accepts_cat_iff]
      refine ⟨"youtu".data, ['.'] ++ "be".data, by decide,
        (accepts_strRE _ _).mpr rfl, ?_⟩
      rw [accepts_cat_iff]
      exact ⟨['.'], "be".data, rfl,
        (accepts_optRE _ _).mpr (Or.inr ((accepts_chrRE _ _).mpr rfl)),
        (accepts_strRE _ _).mpr rfl⟩
    · refine Or.inr ?_
      rw [accepts_cat_iff]
      refine ⟨"youtu".data, [] ++ "be".data, by decide,
        (accepts_strRE _ _).mpr rfl, ?_⟩
      rw [accepts_cat_iff]
      exact ⟨[], "be".data, rfl, (accepts_optRE _ _).mpr (Or.inl rfl),
        (accepts_strRE _ _).mpr rfl⟩

theorem accepts_youtube_regex (s : List Char) :
    Accepts youtube_regex s ↔
      ∃ a ∈ schemeStrs, ∃ b ∈ wwwStrs, ∃ h ∈ hostStrs, ∃ c t,
        c ≠ '\n' ∧ (∀ d ∈ t, d ≠ '\n') ∧
        s = a ++ (b ++ (h ++ ('/' :: c :: t))) := by
  unfold youtube_regex
  rw [accepts_cat_iff]
  constructor
  · rintro ⟨a, s₂, rfl, ha, h₂⟩
    rw [accepts_cat_iff] at h₂
    rcases h₂ with ⟨b, s₃, rfl, hb, h₃⟩
    rw [accepts_cat_iff] at h₃
    rcases h₃ with ⟨h, s₄, rfl, hh, h₄⟩
    rw [accepts_cat_iff] at h₄
    rcases h₄ with ⟨sl, s₅, rfl, hsl, h₅⟩
    rcases (accepts_chrRE _ _).mp hsl with rfl
    rcases (accepts_plus_dot _).mp h₅ with ⟨c, t, rfl, hc, ht⟩
    exact ⟨a, (accepts_schemeRE _).mp ha, b, (accepts_wwwRE _).mp hb,
      h, (accepts_hostRE _).mp hh, c, t, hc, ht, by simp⟩
  · rintro ⟨a, ha, b, hb, h, hh, c, t, hc, ht, rfl⟩
    refine ⟨a, b ++ (h ++ ('/' :: c :: t)), rfl, (accepts_schemeRE _).mpr ha, ?_⟩
    rw [accepts_cat_iff]
    refine ⟨b, h ++ ('/' :: c :: t), rfl, (accepts_wwwRE _).mpr hb, ?_⟩
    rw [accepts_cat_iff]
    refine ⟨h, '/' :: c :: t, rfl, (accepts_hostRE _).mpr hh, ?_⟩
    rw [accepts_cat_iff]
    exact ⟨['/'], c :: t, rfl, (accepts_chrRE _ _).mpr rfl,
      (accepts_plus_dot _).mpr ⟨c, t, rfl, hc, ht⟩⟩

theorem is_youtube_link_iff_decomp (text : String) :
    is_youtube_link text = true ↔
      ∃ a ∈ schemeStrs, ∃ b ∈ wwwStrs, ∃ h ∈ hostStrs, ∃ c rest,
        c ≠ '\n' ∧ text.data = a ++ (b ++ (h ++ ('/' :: c :: rest))) := by
  unfold is_youtube_link
  rw [matchStart_iff]
  constructor
  · rintro ⟨p, q, heq, hp⟩
    rcases (accepts_youtube_regex p).mp hp with ⟨a, ha, b, hb, h, hh, c, t, hc, ht, rfl⟩
    refine ⟨a, ha, b, hb, h, hh, c, t ++ q, hc, ?_⟩
    rw [heq]
    simp
  · rintro ⟨a, ha, b, hb, h, hh, c, rest, hc, heq⟩
    refine ⟨a ++ (b ++ (h ++ ('/' :: [c]))), rest, ?_, ?_⟩
    · rw [heq]
      simp
    · exact (accepts_youtube_regex _).mpr
        ⟨a, ha, b, hb, h, hh, c, [], hc, by simp, rfl⟩

/-! ### Claim theorems -/

/-- C1: for every variant identifier and source URL neither containing the
delimiter character `|`, parsing the token built by the Selection Presenter
(identifier `|` URL) by splitting on `|` as the Fetcher does yields back
exactly the pair (identifier, URL). -/
theorem token_round_trip (format_id url : String)
    (h1 : '|' ∉ format_id.data) (h2 : '|' ∉ url.data) :
    parse_token (build_token format_id url) = some (format_id, url) := by
  unfold parse_token build_token
  have hdata : (format_id ++ "|" ++ url).data = format_id.data ++ '|' :: url.data := by
    rw [String.data_append, String.data_append, List.append_assoc]
    rfl
  rw [hdata, splitOnChar_append '|' format_id.data url.data h1,
    splitOnChar_no_sep '|' url.data h2]

/-- C1 witness: the round trip at the concrete token of scenario 3. -/
theorem token_round_trip_witness :
    '|' ∉ ("22" : String).data ∧ '|' ∉ ("https://youtu.be/abc123" : String).data ∧
    parse_token (build_token "22" "https://youtu.be/abc123") =
      some ("22", "https://youtu.be/abc123") :=
  ⟨by decide, by decide,
    token_round_trip "22" "https://youtu.be/abc123" (by decide) (by decide)⟩

/-- C2: a callback payload that does not split on `|` into exactly two parts
(zero or more than one occurrence of `|`) makes the handler answer the
callback with "Invalid selection." and return, with no download call and no
crash (the handler is a total function). -/
theorem callback_rejects_malformed (engine : String → String → Except String String)
    (onDisk : String → Bool) (sendOk : Bool) (sendErr : String) (payload : String)
    (h : payload.data.count '|' ≠ 1) :
    callback_query engine onDisk sendOk sendErr payload =
      [.answerCallback "Invalid selection."] ∧
    ∀ u f, BotAction.downloadCall u f ∉
      callback_query engine onDisk sendOk sendErr payload := by
  have hp := parse_token_eq_none payload h
  have htr : callback_query engine onDisk sendOk sendErr payload =
      [.answerCallback "Invalid selection."] := by
    unfold callback_query
    rw [hp]
  refine ⟨htr, ?_⟩
  intro u f
  rw [htr]
  simp

/-- C2 witness: scenario 4, payload "bad" with no delimiter. -/
theorem callback_rejects_malformed_witness :
    ("bad" : String).data.count '|' ≠ 1 ∧
    callback_query (fun _ _ => .error "unreachable") (fun _ => true) true "" "bad" =
      [.answerCallback "Invalid selection."] :=
  ⟨by decide,
    (callback_rejects_malformed (fun _ _ => .error "unreachable") (fun _ => true)
      true "" "bad" (by decide)).1⟩

/-- C5: for a well-formed token, if the engine download raises (the download
helper returns `none`) or the returned path does not exist on disk, the
handler reports "❌ Failed to download the video.", performs exactly one
download call (no retry) and never raises; a video attachment is sent only
when a path was returned and exists. -/
theorem fetch_failure_reported (engine : String → String → Except String String)
    (onDisk : String → Bool) (sendOk : Bool) (sendErr : String)
    (payload format_id url : String)
    (hparse : parse_token payload = some (format_id, url)) :
    ((download_youtube_video (engine url format_id) = none ∨
        ∃ p, download_youtube_video (engine url format_id) = some p ∧
          onDisk p = false) →
      callback_query engine onDisk sendOk sendErr payload =
        [.answerCallback "Downloading video...",
         .sendMessage "📥 Downloading video, please wait...",
         .downloadCall url format_id,
         .sendMessage "❌ Failed to download the video."]) ∧
    (∀ path, BotAction.sendVideo path ∈
        callback_query engine onDisk sendOk sendErr payload →
      download_youtube_video (engine url format_id) = some path ∧
        onDisk path = true) ∧
    (callback_query engine onDisk sendOk sendErr payload).countP
        (fun a => match a with | .downloadCall _ _ => true | _ => false) = 1 := by
  have htrace : callback_query engine onDisk sendOk sendErr payload =
      .answerCallback "Downloading video..." ::
      .sendMessage "📥 Downloading video, please wait..." ::
      .downloadCall url format_id ::
      (match download_youtube_video (engine url format_id) with
       | some video_path =>
         if !video_path.isEmpty && onDisk video_path then
           if sendOk then [.sendVideo video_path]
           else [.sendMessage ("❌ Failed to send video: " ++ sendErr)]
         else [.sendMessage "❌ Failed to download the video."]
       | none => [.sendMessage "❌ Failed to download the video."]) := by
    unfold callback_query
    rw [hparse]
  refine ⟨?_, ?_, ?_⟩
  · rintro (hdl | ⟨p, hdl, hex⟩)
    · rw [htrace, hdl]
    · rw [htrace, hdl]
      simp [hex]
  · intro path hmem
    rw [htrace] at hmem
    rcases hdl : download_youtube_video (engine url format_id) with _ | p
    · rw [hdl] at hmem
      simp at hmem
    · rw [hdl] at hmem
      by_cases hc : (!p.isEmpty && onDisk p) = true
      · by_cases hs : sendOk = true
        · simp [hc, hs] at hmem
          subst hmem
          exact ⟨rfl, (Bool.and_eq_true _ _ |>.mp hc).2⟩
        · simp [hc, hs] at hmem
      · simp [hc] at hmem
  · rw [htrace]
    rcases hdl : download_youtube_video (engine url format_id) with _ | p
    · rfl
    · by_cases hc : (!p.isEmpty && onDisk p) = true
      · by_cases hs : sendOk = true
        · simp [hc, hs, List.countP_cons]
        · simp [hc, hs, List.countP_cons]
      · simp [hc, List.countP_cons]

/-- C5 witness: a well-formed token whose download fails is reported as a
fetch failure. -/
theorem fetch_failure_reported_witness :
    parse_token "22|https://youtu.be/abc123" =
      some ("22", "https://youtu.be/abc123") ∧
    callback_query (fun _ _ => .error "HTTP Error 404") (fun _ => false) true ""
        "22|https://youtu.be/abc123" =
      [.answerCallback "Downloading video...",
       .sendMessage "📥 Downloading video, please wait...",
       .downloadCall "https://youtu.be/abc123" "22",
       .sendMessage "❌ Failed to download the video."] :=
  ⟨by decide,
    (fetch_failure_reported (fun _ _ => .error "HTTP Error 404") (fun _ => false)
      true "" "22|https://youtu.be/abc123" "22" "https://youtu.be/abc123"
      (by decide)).1 (Or.inl rfl)⟩

/-- C6: when the resolver fails (engine exception, so `extract_formats`
returns `none`) or yields an empty variant list, the controller emits
exactly the error notice "❌ Failed to extract video formats. Please try
again." after the processing notice, and sends no prompt or keyboard; both
cases produce the identical trace, and the resolver itself is a total
function that never raises. -/
theorem resolver_failure_uniform (engine : Except String VideoInfo) (url : String)
    (h : extract_formats engine = none ∨
      ∃ fs t, extract_formats engine = some (fs, t) ∧ fs = []) :
    receive_video_link engine url =
      [.reply "Processing your YouTube link, please wait...",
       .reply "❌ Failed to extract video formats. Please try again."] ∧
    ∀ p kb, BotAction.sendKeyboard p kb ∉ receive_video_link engine url := by
  have htr : receive_video_link engine url =
      [.reply "Processing your YouTube link, please wait...",
       .reply "❌ Failed to extract video formats. Please try again."] := by
    unfold receive_video_link
    rcases h with hnone | ⟨fs, t, hsome, rfl⟩
    · rw [hnone]
    · rw [hsome]
      rfl
  refine ⟨htr, ?_⟩
  intro p kb
  rw [htr]
  simp

/-- C6 witness: an engine failure (scenario) and an empty list (scenario 2)
both yield exactly the error notice. -/
theorem resolver_failure_uniform_witness :
    receive_video_link (.error "unsupported URL") "https://youtu.be/abc123" =
      [.reply "Processing your YouTube link, please wait...",
       .reply "❌ Failed to extract video formats. Please try again."] ∧
    receive_video_link (.ok { formats := [], title := some "Demo" })
        "https://youtu.be/abc123" =
      [.reply "Processing your YouTube link, please wait...",
       .reply "❌ Failed to extract video formats. Please try again."] :=
  ⟨(resolver_failure_uniform (.error "unsupported URL") "https://youtu.be/abc123"
      (Or.inl rfl)).1,
   (resolver_failure_uniform (.ok { formats := [], title := some "Demo" })
      "https://youtu.be/abc123" (Or.inr ⟨[], "Demo", rfl, rfl⟩)).1⟩

/-- C3 counterexample: a descriptor whose codec keys are absent is kept by
the resolver although it does not verifiably carry an audio (or video)
component — `None != 'none'` is true in Python. -/
theorem resolver_keeps_unknown_codec :
    extract_formats (.ok { formats := [noCodecFormat], title := some "t" }) =
      some ([noCodecFormat], "t") ∧
    ¬ has_audio_component noCodecFormat ∧ ¬ has_video_component noCodecFormat := by
  refine ⟨rfl, ?_, ?_⟩
  · rintro ⟨c, hc, _⟩
    simp [noCodecFormat] at hc
  · rintro ⟨c, hc, _⟩
    simp [noCodecFormat] at hc

/-- C3 amended: a descriptor is among the resolver's returned variants
exactly when it appears in the engine-reported list with neither its
`vcodec` nor its `acodec` field equal to the literal marker `"none"`;
audio-only and video-only variants, which the engine marks with the codec
string `"none"`, are excluded, but a descriptor with an absent codec field
is retained. -/
theorem resolver_filter_characterization (info : VideoInfo) (f : MediaFormat) :
    ∃ fs t, extract_formats (.ok info) = some (fs, t) ∧
      (f ∈ fs ↔ f ∈ info.formats ∧
        f.vcodec ≠ some "none" ∧ f.acodec ≠ some "none") := by
  refine ⟨info.formats.filter valid_format, info.title.getD "video", rfl, ?_⟩
  rw [List.mem_filter]
  simp [valid_format, and_assoc]

/-- C3 amended witness: the characterization at the absent-codec descriptor. -/
theorem resolver_filter_characterization_witness :
    ∃ fs t, extract_formats (.ok { formats := [noCodecFormat], title := some "t" }) =
      some (fs, t) ∧
      (noCodecFormat ∈ fs ↔ noCodecFormat ∈ [noCodecFormat] ∧
        noCodecFormat.vcodec ≠ some "none" ∧ noCodecFormat.acodec ≠ some "none") :=
  resolver_filter_characterization
    { formats := [noCodecFormat], title := some "t" } noCodecFormat

/-- C4: the keyboard built from the resolved variants has at most 5 buttons,
is the button-mapped 5-element initial segment of the resolved list, and the
shown variants form a sublist (same relative order, no sorting) of the
engine-reported format list. -/
theorem keyboard_at_most_five_ordered (info : VideoInfo) (url : String)
    (fs : List MediaFormat) (t : String)
    (h : extract_formats (.ok info) = some (fs, t)) :
    (build_keyboard url fs).length ≤ 5 ∧
    build_keyboard url fs = (fs.take 5).map (make_button url) ∧
    List.Sublist (fs.take 5) info.formats := by
  have hfs : fs = info.formats.filter valid_format := by
    simp only [extract_formats, Option.some.injEq, Prod.mk.injEq] at h
    exact h.1.symm
  refine ⟨?_, rfl, ?_⟩
  · simp only [build_keyboard, max_num_formats, List.length_map, List.length_take]
    omega
  · rw [hfs]
    exact (List.take_sublist _ _).trans (List.filter_sublist _)

/-- C4 witness: the bound at a concrete resolver result. -/
theorem keyboard_at_most_five_ordered_witness :
    (build_keyboard "u" []).length ≤ 5 :=
  (keyboard_at_most_five_ordered { formats := [], title := none } "u" [] "video"
    rfl).1

/-- C7 counterexample: "youtube/abc" is classified as a video link although
it does not start with either supported hostname (`youtube.com` or
`youtu.be`), so the classifier does not return true for exactly the strings
the claim describes. -/
theorem classifier_accepts_bare_host :
    is_youtube_link "youtube/abc" = true ∧
    spec_supported_link "youtube/abc" = false := by
  constructor
  · decide
  · decide

/-- C7 amended: the classifier returns true exactly for the strings that
start with an optional scheme (`http://` or `https://`), an optional
`www.`, then one of the hosts `youtube.com`, `youtu.be`, or bare `youtube`
(the dot of the short host is optional in the pattern), followed by `/` and
at least one character other than a newline; the match is anchored at the
start of the string. -/
theorem is_youtube_link_characterized (text : String) :
    is_youtube_link text = true ↔
      ∃ a ∈ schemeStrs, ∃ b ∈ wwwStrs, ∃ h ∈ hostStrs, ∃ c rest,
        c ≠ '\n' ∧ text.data = a ++ (b ++ (h ++ ('/' :: c :: rest))) :=
  is_youtube_link_iff_decomp text

/-- C7 amended witness: the characterization applied at a concrete link. -/
theorem is_youtube_link_characterized_witness :
    is_youtube_link "youtu.be/a" = true :=
  (is_youtube_link_characterized "youtu.be/a").mpr
    ⟨[], by decide, [], by decide, "youtu.be".data, by decide, 'a', [],
      by decide, by decide⟩

/-- C8: startup exits with code 1 when the credential is missing (before any
network check is attempted) and when the connectivity precheck reports a
connection error, and with code 2 on an unexpected precheck error; with a
credential present and a reachable endpoint the process continues. -/
theorem startup_exit_codes (net : NetOutcome) (t : String) (ht : t ≠ "") :
    startup none net = { exitCode := some 1, networkChecked := false } ∧
    startup (some t) .connError = { exitCode := some 1, networkChecked := true } ∧
    startup (some t) .unexpected = { exitCode := some 2, networkChecked := true } ∧
    startup (some t) .ok = { exitCode := none, networkChecked := true } := by
  have hcond : ¬(some t = (none : Option String) ∨ some t = some "") := by
    rintro (h | h)
    · exact Option.noConfusion h
    · injection h with h
      exact ht h
  refine ⟨?_, ?_, ?_, ?_⟩
  · unfold startup
    rw [if_pos (Or.inl rfl)]
  · unfold startup
    rw [if_neg hcond]
    rfl
  · unfold startup
    rw [if_neg hcond]
    rfl
  · unfold startup
    rw [if_neg hcond]
    rfl

/-- C8 witness: the exit codes at a concrete token. -/
theorem startup_exit_codes_witness :
    ("TOKEN" : String) ≠ "" ∧
    startup none .ok = { exitCode := some 1, networkChecked := false } ∧
    startup (some "TOKEN") .connError =
      { exitCode := some 1, networkChecked := true } ∧
    startup (some "TOKEN") .unexpected =
      { exitCode := some 2, networkChecked := true } :=
  ⟨by decide, (startup_exit_codes .ok "TOKEN" (by decide)).1,
    (startup_exit_codes .ok "TOKEN" (by decide)).2.1,
    (startup_exit_codes .ok "TOKEN" (by decide)).2.2.1⟩

/-- C9: each choice label is the variant's resolution (placeholder "NA" when
the height is absent) followed by "p" and the parenthesized extension, as in
"720p (mp4)", and the prompt embeds the title as in
"Select quality for 'Demo':". -/
theorem presenter_label_shape (f : MediaFormat) (url title : String) (n : Nat) :
    (f.height = some n →
      (make_button url f).text = toString n ++ "p (" ++ f.ext.getD "" ++ ")") ∧
    (f.height = none →
      (make_button url f).text = "NA" ++ "p (" ++ f.ext.getD "" ++ ")") ∧
    prompt_text title = "Select quality for \x27" ++ title ++ "\x27:" ∧
    (make_button url fmt720).text = "720p (mp4)" ∧
    prompt_text "Demo" = "Select quality for \x27Demo\x27:" := by
  refine ⟨?_, ?_, rfl, ?_, ?_⟩
  · intro hh
    simp [make_button, button_label, resolution_text, hh]
  · intro hh
    simp [make_button, button_label, resolution_text, hh]
  · rfl
  · rfl

/-- C9 witness: the label of the 720p/mp4 variant of scenario 1. -/
theorem presenter_label_shape_witness :
    (make_button "https://youtu.be/abc123" fmt720).text =
      toString 720 ++ "p (" ++ (some "mp4").getD "" ++ ")" :=
  (presenter_label_shape fmt720 "https://youtu.be/abc123" "Demo" 720).1 rfl

/-- C10 counterexample: "youtube/\n" begins with the bare host `youtube`
followed by `/` and one character, yet the classifier rejects it, because
the pattern's `.` does not match a newline. -/
theorem newline_after_slash_rejected :
    ("\n" : String).data.length = 1 ∧ is_youtube_link "youtube/\n" = false := by
  constructor
  · decide
  · decide

/-- C10 amended: every string beginning with the bare host `youtube` (no
dot, no top-level domain) followed by `/` and at least one character other
than a newline is classified as a supported video link, although it does
not start with a supported platform domain. -/
theorem bare_youtube_host_accepted (c : Char) (rest : List Char) (hc : c ≠ '\n') :
    is_youtube_link
      (String.mk ('y' :: 'o' :: 'u' :: 't' :: 'u' :: 'b' :: 'e' :: '/' :: c :: rest)) = true ∧
    spec_supported_link
      (String.mk ('y' :: 'o' :: 'u' :: 't' :: 'u' :: 'b' :: 'e' :: '/' :: c :: rest)) = false := by
  constructor
  · exact (is_youtube_link_iff_decomp _).mpr
      ⟨[], by decide, [], by decide, "youtube".data, by decide, c, rest, hc, rfl⟩
  · rfl

/-- C10 witness: the bare-host classification at "youtube/abc". -/
theorem bare_youtube_host_accepted_witness :
    is_youtube_link
      (String.mk ('y' :: 'o' :: 'u' :: 't' :: 'u' :: 'b' :: 'e' :: '/' :: 'a' :: 'b' :: 'c' :: [])) =
      true :=
  (bare_youtube_host_accepted 'a' ['b', 'c'] (by decide)).1
